import Mathlib

/-!
A verification development for the ingestion pipeline of
`create_search_index.py`: the hashing / fingerprinting functions
(`get_hash`, `get_file_hash`), the per-source extractors
(`extract_text_from_pdf`, `extract_text_from_web_page`,
`extract_text_from_db` with `split_content`), and the batch upload loop of
`create_index_from_db`.

Modelling conventions. Pure Python functions become Lean functions over
`Nat`, `Int`, `String` and lists; machine words are naturals reduced
modulo `2 ^ 32` / `2 ^ 64` where overflow matters. External collaborators
are parameters: the embedding service is a function from the input text to
its vector, the file system a function from paths to read outcomes, the
web a function from URLs to fetched pages, the langchain splitters a
function from text to chunks. The hashlib algorithms are implemented in
full (MD5, SHA-1, SHA-256, SHA-512), with the round constants derived the
way the standards define them — integer square/cube roots of the first
primes, and for MD5 fixed-point integer sines — and validated against the
published test vectors. Fallible code returns `Except`; printing and
logging are returned as explicit lists of messages. The crawl loop, which
the source runs without a visited set, is given explicit fuel.
-/

namespace AzureAIChat

set_option maxRecDepth 10000

/-! Hash primitives -/

/-- Integer square root by bisection (structural fuel recursion, kernel-reducible). -/
def isqrtGo (n : Nat) : Nat → Nat → Nat → Nat
  | 0, lo, _ => lo
  | fuel + 1, lo, hi =>
    if lo + 1 < hi then
      let m := (lo + hi) / 2
      if m * m ≤ n then isqrtGo n fuel m hi else isqrtGo n fuel lo m
    else lo

def isqrt (n : Nat) : Nat := isqrtGo n 300 0 (n + 1)

/-- Integer cube root by bisection. -/
def icbrtGo (n : Nat) : Nat → Nat → Nat → Nat
  | 0, lo, _ => lo
  | fuel + 1, lo, hi =>
    if lo + 1 < hi then
      let m := (lo + hi) / 2
      if m * m * m ≤ n then icbrtGo n fuel m hi else icbrtGo n fuel lo m
    else lo

def icbrt (n : Nat) : Nat := icbrtGo n 300 0 (n + 1)

/-- Trial-division primality test. -/
def isPrime (n : Nat) : Bool :=
  decide (2 ≤ n) && (List.range n).all (fun d => d < 2 || n % d != 0)

/-- The first 80 primes (2, 3, 5, ..., 409). -/
def primesList : List Nat := (List.range 410).filter isPrime

def w32 (n : Nat) : Nat := n % 4294967296
def w64 (n : Nat) : Nat := n % 18446744073709551616

def rotr32 (k n : Nat) : Nat := w32 ((n >>> k) ||| (n <<< (32 - k)))
def rotl32 (k n : Nat) : Nat := w32 ((n <<< k) ||| (n >>> (32 - k)))
def rotr64 (k n : Nat) : Nat := w64 ((n >>> k) ||| (n <<< (64 - k)))

/-- Big-endian byte representation, `width` bytes. -/
def toBE (width n : Nat) : List Nat :=
  (List.range width).map (fun i => n / 2 ^ (8 * (width - 1 - i)) % 256)

/-- Little-endian byte representation, `width` bytes. -/
def toLE (width n : Nat) : List Nat :=
  (List.range width).map (fun i => n / 2 ^ (8 * i) % 256)

def beBytesToWord (bs : List Nat) : Nat := bs.foldl (fun a b => a * 256 + b) 0
def leBytesToWord (bs : List Nat) : Nat := bs.foldr (fun b a => a * 256 + b) 0

/-- Split a list into blocks of `n` elements (the final block may be shorter).
Structural fuel recursion so the kernel can evaluate it. -/
def chunksOfGo (n : Nat) : Nat → List α → List (List α)
  | 0, _ => []
  | _, [] => []
  | fuel + 1, l => l.take n :: chunksOfGo n fuel (l.drop n)

def chunksOf (n : Nat) (l : List α) : List (List α) := chunksOfGo n l.length l

/-- Merkle–Damgård padding: append 0x80, zero-pad, then the bit length
in a `lenBytes`-byte field, to a multiple of `blockBytes`. -/
def mdPadBE (lenBytes blockBytes : Nat) (msg : List Nat) : List Nat :=
  let pad0 := (blockBytes - ((msg.length + 1 + lenBytes) % blockBytes)) % blockBytes
  msg ++ [128] ++ List.replicate pad0 0 ++ toBE lenBytes (8 * msg.length)

def mdPadLE (lenBytes blockBytes : Nat) (msg : List Nat) : List Nat :=
  let pad0 := (blockBytes - ((msg.length + 1 + lenBytes) % blockBytes)) % blockBytes
  msg ++ [128] ++ List.replicate pad0 0 ++ toLE lenBytes (8 * msg.length)

/-! SHA-256 (FIPS 180-4). Round constants are the first 32 bits of the
fractional parts of the cube roots of the first 64 primes; the initial hash
value comes from the square roots of the first 8 primes. -/

def sha256K : List Nat := (primesList.take 64).map (fun p => icbrt (p * 2 ^ 96) % 2 ^ 32)
def sha256H0 : List Nat := (primesList.take 8).map (fun p => isqrt (p * 2 ^ 64) % 2 ^ 32)

def sha256ExtendStep (ws : List Nat) : List Nat :=
  let n := ws.length
  let x15 := ws.getD (n - 15) 0
  let x2 := ws.getD (n - 2) 0
  let s0 := rotr32 7 x15 ^^^ rotr32 18 x15 ^^^ (x15 >>> 3)
  let s1 := rotr32 17 x2 ^^^ rotr32 19 x2 ^^^ (x2 >>> 10)
  ws ++ [w32 (ws.getD (n - 16) 0 + s0 + ws.getD (n - 7) 0 + s1)]

def sha256Schedule (ws : List Nat) : List Nat :=
  (List.range 48).foldl (fun acc _ => sha256ExtendStep acc) ws

def sha256Round (st : List Nat) (kw : Nat × Nat) : List Nat :=
  match st with
  | [a, b, c, d, e, f, g, h] =>
    let S1 := rotr32 6 e ^^^ rotr32 11 e ^^^ rotr32 25 e
    let ch := (e &&& f) ^^^ ((e ^^^ 4294967295) &&& g)
    let t1 := w32 (h + S1 + ch + kw.1 + kw.2)
    let S0 := rotr32 2 a ^^^ rotr32 13 a ^^^ rotr32 22 a
    let maj := (a &&& b) ^^^ (a &&& c) ^^^ (b &&& c)
    let t2 := w32 (S0 + maj)
    [w32 (t1 + t2), a, b, c, w32 (d + t1), e, f, g]
  | st => st

def sha256Block (h : List Nat) (block : List Nat) : List Nat :=
  let ws := sha256Schedule ((chunksOf 4 block).map beBytesToWord)
  let st := (sha256K.zip ws).foldl sha256Round h
  (h.zip st).map (fun p => w32 (p.1 + p.2))

def sha256Bytes (msg : List Nat) : List Nat :=
  ((chunksOf 64 (mdPadBE 8 64 msg)).foldl sha256Block sha256H0).flatMap (toBE 4)

def hexDigitChars : List Char := "0123456789abcdef".data

def hexChar (n : Nat) : Char := hexDigitChars.getD n '0'

def bytesToHex (bs : List Nat) : String :=
  String.mk (bs.foldr (fun b acc => hexChar (b / 16) :: hexChar (b % 16) :: acc) [])

/-- UTF-8 encoding of one character (scalar value), per RFC 3629. -/
def utf8EncodeCharM (c : Char) : List Nat :=
  let n := c.toNat
  if n < 128 then [n]
  else if n < 2048 then [192 ||| (n >>> 6), 128 ||| (n &&& 63)]
  else if n < 65536 then
    [224 ||| (n >>> 12), 128 ||| ((n >>> 6) &&& 63), 128 ||| (n &&& 63)]
  else
    [240 ||| (n >>> 18), 128 ||| ((n >>> 12) &&& 63), 128 ||| ((n >>> 6) &&& 63),
      128 ||| (n &&& 63)]

/-- Model of Python `str.encode('utf-8')`. -/
def utf8Encode (s : String) : List Nat := s.data.flatMap utf8EncodeCharM



/-! SHA-1 (FIPS 180-4). The four round constants are the high 32 bits of the
square roots of 2, 3, 5 and 10 (floor(2^30 * sqrt(k))). -/

def sha1H0 : List Nat := [1732584193, 4023233417, 2562383102, 271733878, 3285377520]

def sha1KOf (i : Nat) : Nat :=
  if i < 20 then isqrt (2 * 2 ^ 60)
  else if i < 40 then isqrt (3 * 2 ^ 60)
  else if i < 60 then isqrt (5 * 2 ^ 60)
  else isqrt (10 * 2 ^ 60)

def sha1FOf (i b c d : Nat) : Nat :=
  if i < 20 then (b &&& c) ||| ((b ^^^ 4294967295) &&& d)
  else if i < 40 then b ^^^ c ^^^ d
  else if i < 60 then (b &&& c) ||| (b &&& d) ||| (c &&& d)
  else b ^^^ c ^^^ d

def sha1ExtendStep (ws : List Nat) : List Nat :=
  let n := ws.length
  ws ++ [rotl32 1 (ws.getD (n - 3) 0 ^^^ ws.getD (n - 8) 0 ^^^ ws.getD (n - 14) 0 ^^^
    ws.getD (n - 16) 0)]

def sha1Schedule (ws : List Nat) : List Nat :=
  (List.range 64).foldl (fun acc _ => sha1ExtendStep acc) ws

def sha1Round (st : List Nat) (iw : Nat × Nat) : List Nat :=
  match st with
  | [a, b, c, d, e] =>
    let t := w32 (rotl32 5 a + sha1FOf iw.1 b c d + e + sha1KOf iw.1 + iw.2)
    [t, a, rotl32 30 b, c, d]
  | st => st

def sha1Block (h : List Nat) (block : List Nat) : List Nat :=
  let ws := sha1Schedule ((chunksOf 4 block).map beBytesToWord)
  let st := ((List.range 80).zip ws).foldl sha1Round h
  (h.zip st).map (fun p => w32 (p.1 + p.2))

def sha1Bytes (msg : List Nat) : List Nat :=
  ((chunksOf 64 (mdPadBE 8 64 msg)).foldl sha1Block sha1H0).flatMap (toBE 4)

/-! SHA-512 (FIPS 180-4): SHA-256 with 64-bit words, 80 rounds, 128-byte
blocks, and constants from the first 80 primes. -/

def sha512K : List Nat := primesList.map (fun p => icbrt (p * 2 ^ 192) % 2 ^ 64)
def sha512H0 : List Nat := (primesList.take 8).map (fun p => isqrt (p * 2 ^ 128) % 2 ^ 64)

def sha512ExtendStep (ws : List Nat) : List Nat :=
  let n := ws.length
  let x15 := ws.getD (n - 15) 0
  let x2 := ws.getD (n - 2) 0
  let s0 := rotr64 1 x15 ^^^ rotr64 8 x15 ^^^ (x15 >>> 7)
  let s1 := rotr64 19 x2 ^^^ rotr64 61 x2 ^^^ (x2 >>> 6)
  ws ++ [w64 (ws.getD (n - 16) 0 + s0 + ws.getD (n - 7) 0 + s1)]

def sha512Schedule (ws : List Nat) : List Nat :=
  (List.range 64).foldl (fun acc _ => sha512ExtendStep acc) ws

def sha512Round (st : List Nat) (kw : Nat × Nat) : List Nat :=
  match st with
  | [a, b, c, d, e, f, g, h] =>
    let S1 := rotr64 14 e ^^^ rotr64 18 e ^^^ rotr64 41 e
    let ch := (e &&& f) ^^^ ((e ^^^ 18446744073709551615) &&& g)
    let t1 := w64 (h + S1 + ch + kw.1 + kw.2)
    let S0 := rotr64 28 a ^^^ rotr64 34 a ^^^ rotr64 39 a
    let maj := (a &&& b) ^^^ (a &&& c) ^^^ (b &&& c)
    let t2 := w64 (S0 + maj)
    [w64 (t1 + t2), a, b, c, w64 (d + t1), e, f, g]
  | st => st

def sha512Block (h : List Nat) (block : List Nat) : List Nat :=
  let ws := sha512Schedule ((chunksOf 8 block).map beBytesToWord)
  let st := (sha512K.zip ws).foldl sha512Round h
  (h.zip st).map (fun p => w64 (p.1 + p.2))

def sha512Bytes (msg : List Nat) : List Nat :=
  ((chunksOf 128 (mdPadBE 16 128 msg)).foldl sha512Block sha512H0).flatMap (toBE 8)

/-! MD5 (RFC 1321). The 64 additive constants are floor(2^32 * |sin(i+1)|);
they are computed here with fixed-point integer arithmetic: pi via Machin's
formula and sine via its Taylor series at scale 2^192. -/

def sinScale : Nat := 2 ^ 192

/-- arctan(1/x), scaled by sinScale, by the alternating Leibniz series. -/
def atanInvScaled (x : Nat) : Int :=
  (List.range 120).foldl (fun acc k =>
    let t : Int := Int.ofNat (sinScale / ((2 * k + 1) * x ^ (2 * k + 1)))
    if k % 2 == 0 then acc + t else acc - t) 0

/-- pi scaled by sinScale (Machin: pi = 16 arctan(1/5) - 4 arctan(1/239)). -/
def piScaled : Int := 16 * atanInvScaled 5 - 4 * atanInvScaled 239

/-- sin(n) for a natural n (radians), scaled by sinScale: reduce mod 2*pi,
then sum the Taylor series. -/
def sinScaled (n : Nat) : Int :=
  let twoPi := (2 * piScaled).toNat
  let r := (n * sinScale) % twoPi
  ((List.range 60).foldl (fun (acc : Nat × Int) k =>
    let t' := acc.1 * r * r / (sinScale * sinScale * (2 * k + 2) * (2 * k + 3))
    (t', if k % 2 == 0 then acc.2 + Int.ofNat acc.1 else acc.2 - Int.ofNat acc.1))
    (r, 0)).2

def md5K : List Nat :=
  (List.range 64).map (fun i => (sinScaled (i + 1)).natAbs * 4294967296 / sinScale)

def md5SOf (i : Nat) : Nat :=
  (if i < 16 then [7, 12, 17, 22]
   else if i < 32 then [5, 9, 14, 20]
   else if i < 48 then [4, 11, 16, 23]
   else [6, 10, 15, 21]).getD (i % 4) 0

def md5GOf (i : Nat) : Nat :=
  if i < 16 then i
  else if i < 32 then (5 * i + 1) % 16
  else if i < 48 then (3 * i + 5) % 16
  else (7 * i) % 16

def md5FOf (i b c d : Nat) : Nat :=
  if i < 16 then (b &&& c) ||| ((b ^^^ 4294967295) &&& d)
  else if i < 32 then (d &&& b) ||| ((d ^^^ 4294967295) &&& c)
  else if i < 48 then b ^^^ c ^^^ d
  else c ^^^ (b ||| (d ^^^ 4294967295))

def md5H0 : List Nat := [1732584193, 4023233417, 2562383102, 271733878]

def md5Round (ms : List Nat) (st : List Nat) (i : Nat) : List Nat :=
  match st with
  | [a, b, c, d] =>
    let f := w32 (a + md5FOf i b c d + md5K.getD i 0 + ms.getD (md5GOf i) 0)
    [d, w32 (b + rotl32 (md5SOf i) f), b, c]
  | st => st

def md5Block (h : List Nat) (block : List Nat) : List Nat :=
  let ms := (chunksOf 4 block).map leBytesToWord
  let st := (List.range 64).foldl (md5Round ms) h
  (h.zip st).map (fun p => w32 (p.1 + p.2))

def md5Bytes (msg : List Nat) : List Nat :=
  ((chunksOf 64 (mdPadLE 8 64 msg)).foldl md5Block md5H0).flatMap (toLE 4)


/-! ### Model of the Python runtime pieces the scripts use -/

/-- A Python exception value: the displayed `args` and the displayed type. -/
structure PyError where
  args : String
  ty : String
  deriving DecidableEq

/-- Values that can appear as fields of a tuple passed to `get_hash`. -/
inductive PyVal where
  | str (s : String)
  | int (n : Nat)
  deriving DecidableEq

/-- Python `str()` of a field value. -/
def pyStr : PyVal → String
  | .str s => s
  | .int n => toString n

/-- Iterating a Python string yields its characters (each a 1-character
string); this is what `get_hash` receives when called on a plain string. -/
def pyIterStr (s : String) : List PyVal :=
  s.data.map (fun c => PyVal.str (String.singleton c))

/-- Model of Python `str.lower()` (ASCII case mapping, which is all the
algorithm names need). -/
def pyLower (s : String) : String := String.mk (s.data.map Char.toLower)

/-- Python `needle in haystack` on strings (substring containment). -/
def pyInStr (needle haystack : String) : Bool :=
  haystack.data.tails.any (fun t => needle.data.isPrefixOf t)

/-- The four hash algorithms named in the `hash_algorithms` dict. -/
inductive HashAlg where
  | md5 | sha1 | sha256 | sha512
  deriving DecidableEq

/-- Digest bytes of each algorithm (models the hashlib constructors). -/
def digestBytes : HashAlg → List Nat → List Nat
  | .md5 => md5Bytes
  | .sha1 => sha1Bytes
  | .sha256 => sha256Bytes
  | .sha512 => sha512Bytes

/-- The `hash_algorithms` dict lookup (`.get` returns `None` on a miss). -/
def hash_algorithms (name : String) : Option HashAlg :=
  if name = "md5" then some .md5
  else if name = "sha1" then some .sha1
  else if name = "sha256" then some .sha256
  else if name = "sha512" then some .sha512
  else none

/-- A hashlib hash object: per the hashlib contract, a sequence of
`update` calls is equivalent to a single call on the concatenation, so the
state is modelled as the bytes fed so far. -/
structure HashObj where
  alg : HashAlg
  buf : List Nat
  deriving DecidableEq

def HashObj.update (h : HashObj) (bs : List Nat) : HashObj :=
  { h with buf := h.buf ++ bs }

def HashObj.hexdigest (h : HashObj) : String :=
  bytesToHex (digestBytes h.alg h.buf)

/-! ### get_hash and get_file_hash (create_search_index.py lines 423-494) -/

/-- Model of `get_hash(content, algorithm)`: select the algorithm (raising
`ValueError` on an unknown name), then `update` the hash object with the
UTF-8 encoding of `str(element)` for each element of `content`, and return
the hex digest. -/
def get_hash (content : List PyVal) (algorithm : String) : Except PyError String :=
  match hash_algorithms (pyLower algorithm) with
  | none => .error ⟨"Unsupported hash algorithm: " ++ algorithm, "ValueError"⟩
  | some alg =>
    .ok (HashObj.hexdigest
      (content.foldl (fun h e => h.update (utf8Encode (pyStr e))) ⟨alg, []⟩))

/-- Specialization of `get_hash` to its default algorithm `sha256`; by
`get_hash_default_eq` below this is the value `get_hash` returns. -/
def get_hash_sha256 (content : List PyVal) : String :=
  HashObj.hexdigest
    (content.foldl (fun h e => h.update (utf8Encode (pyStr e))) ⟨.sha256, []⟩)

/-- Outcome of reading a file: the model of the file system passed to
`get_file_hash`. The three non-`found` cases correspond to the three
`except` clauses. -/
inductive FileResult where
  | found (bytes : List Nat)
  | notFound
  | permissionDenied
  | otherError (msg : String)
  deriving DecidableEq

abbrev FS := String → FileResult

/-- Result of `get_file_hash`: the returned value and the messages printed.
The whole body runs inside `try ... except Exception`, so the function
never propagates an exception: the internal `raise ValueError` for a bad
algorithm name is caught by its own generic handler (which prints
`Error hashing file: ...` and falls through, returning `None`). -/
structure FileHashOut where
  result : Option String
  printed : List String
  deriving DecidableEq

/-- Model of `get_file_hash(file_path, algorithm)`: stream the file in 4096-byte
blocks through the selected hash and return the hex digest; on any
exception print a message and return `None`. -/
def get_file_hash (fs : FS) (file_path : String) (algorithm : String) : FileHashOut :=
  match hash_algorithms (pyLower algorithm) with
  | none =>
    ⟨none, ["Error hashing file: Unsupported hash algorithm: " ++ algorithm]⟩
  | some alg =>
    match fs file_path with
    | .found bytes =>
      ⟨some (HashObj.hexdigest
        ((chunksOf 4096 bytes).foldl (fun h c => h.update c) ⟨alg, []⟩)), []⟩
    | .notFound => ⟨none, ["File not found: " ++ file_path]⟩
    | .permissionDenied => ⟨none, ["Permission denied: " ++ file_path]⟩
    | .otherError msg => ⟨none, ["Error hashing file: " ++ msg]⟩

/-! ### PDF extraction (create_search_index.py lines 161-192) -/

/-- A record built by `extract_text_from_pdf` (the dict of lines 183-190).
`contentVector` holds `emb.data[0].embedding`; the embedding service is
modelled as a function from the input text to its vector. -/
structure PdfRecord where
  id : Option String
  content : String
  filepath : String
  title : String
  url : String
  contentVector : List Int
  deriving DecidableEq

/-- Model of `os.path.basename` for POSIX paths. -/
def basename (p : String) : String := (p.splitOn "/").getLast?.getD p

/-- Root part of `os.path.splitext`: the name up to the last dot.
(Simplified model: the hidden-file special case is not needed here, and no
claim depends on this function.) -/
def splitextRoot (s : String) : String :=
  let parts := s.splitOn "."
  if parts.length ≤ 1 then s else String.intercalate "." parts.dropLast

/-- The embedding capability `embeddings.embed(input=..., model=...)`,
modelled as a pure function from the input text to the vector
`emb.data[0].embedding` (integers stand in for the float entries). -/
abbrev Embedder := String → List Int

/-- The pages of the document that `fitz.Document(pdf_path)` yields
(`page.get_text()` for each page, in page order). -/
abbrev PdfReader := String → List String

/-- Per-page loop of `extract_text_from_pdf`: for each page text, call
`get_file_hash(pdf_path)` for the id, embed the text, and append the
record. Collects the messages `get_file_hash` prints. -/
def extractPdfPages (fs : FS) (embed : Embedder) (pdf_path file_name name : String) :
    List String → List PdfRecord × List String
  | [] => ([], [])
  | text :: rest =>
    let gfh := get_file_hash fs pdf_path "sha256"
    let rec1 : PdfRecord :=
      { id := gfh.result, content := text, filepath := file_name, title := name,
        url := pdf_path, contentVector := embed text }
    let (recs, prints) := extractPdfPages fs embed pdf_path file_name name rest
    (rec1 :: recs, gfh.printed ++ prints)

/-- Model of `extract_text_from_pdf(pdf_path, model)`. -/
def extract_text_from_pdf (fs : FS) (pdf : PdfReader) (embed : Embedder)
    (pdf_path : String) : List PdfRecord × List String :=
  let file_name := basename pdf_path
  let name := splitextRoot file_name
  extractPdfPages fs embed pdf_path file_name name (pdf pdf_path)

/-! ### Web crawl (create_search_index.py lines 194-250) -/

/-- What `requests.get` plus BeautifulSoup yield for one URL: the HTTP
status, the `<title>` tag (if any), the page text (`soup.getText()`), and
the `href` values of the `a[href]` elements in document order. -/
structure WebPage where
  status : Nat
  title : Option String
  text : String
  links : List String

abbrev Web := String → WebPage

/-- A record built by `extract_text_from_web_page` (the dict of lines
232-239); `title` holds the `soup.find('title')` result. -/
structure WebRecord where
  id : String
  content : String
  filepath : String
  title : Option String
  url : String
  contentVector : List Int
  deriving DecidableEq

/-- The crawl loop: `while len(urls) != 0: url = urls.pop(); ...`.
Python's `list.pop()` removes the LAST element, so the worklist is a
stack.  Links are appended only when `initial_url in link_url`.  The
second component is the order in which URLs were requested.  `fuel`
bounds the number of loop iterations (the source has no visited set, so
a cyclic site never terminates; every claim below quantifies over fuel). -/
def crawl (web : Web) (embed : Embedder) (initial_url : String) :
    Nat → List String → List WebRecord × List String
  | 0, _ => ([], [])
  | fuel + 1, urls =>
    match urls.getLast? with
    | none => ([], [])
    | some url =>
      if (web url).status = 200 then
        let sub := crawl web embed initial_url fuel
          (urls.dropLast ++ (web url).links.filter (fun l => pyInStr initial_url l))
        ({ id := get_hash_sha256 (pyIterStr (web url).text), content := (web url).text,
           filepath := url, title := (web url).title, url := url,
           contentVector := embed (web url).text } :: sub.1, url :: sub.2)
      else
        let sub := crawl web embed initial_url fuel urls.dropLast
        (sub.1, url :: sub.2)

/-- Model of `extract_text_from_web_page(initial_url, model)`. -/
def extract_text_from_web_page (web : Web) (embed : Embedder)
    (initial_url : String) (fuel : Nat) : List WebRecord × List String :=
  crawl web embed initial_url fuel [initial_url]

/-- The spec's words instead of the source: a breadth-first crawl, i.e.
the same loop but popping the FIRST worklist element (FIFO).  Used to
compare the source's traversal order against the spec's. -/
def crawlFifoSpec (web : Web) (initial_url : String) :
    Nat → List String → List String
  | 0, _ => []
  | fuel + 1, urls =>
    match urls with
    | [] => []
    | url :: rest =>
      let page := web url
      if page.status = 200 then
        url :: crawlFifoSpec web initial_url fuel
          (rest ++ page.links.filter (fun l => pyInStr initial_url l))
      else
        url :: crawlFifoSpec web initial_url fuel rest

/-! ### Database extraction (create_search_index.py lines 252-336) -/

/-- One row of the wiki query: `(description, title, content, format)`. -/
structure DbRow where
  description : String
  title : String
  content : String
  format : String
  deriving DecidableEq

/-- A langchain `Document` as produced by the splitters: only its
`page_content` is consumed. -/
structure LCDocument where
  page_content : String
  deriving DecidableEq

/-- The chunking pipeline of `split_creole` (creole2html +
HTMLHeaderTextSplitter + RecursiveCharacterTextSplitter): external
libraries, modelled as an arbitrary function from the raw text to the
chunk list. -/
abbrev Splitter := String → List LCDocument

/-- Model of `split_content(html_string, format)`: dispatch on the format string;
any format other than `'creole'` raises `Exception(format)`. -/
def split_content (splitter : Splitter) (html_string format : String) :
    Except PyError (List LCDocument) :=
  if format = "creole" then .ok (splitter html_string) else .error ⟨format, "Exception"⟩

/-- A record built by `extract_text_from_db` (the dict of lines 297-304). -/
structure DocRecord where
  id : String
  content : String
  filepath : String
  title : String
  url : String
  contentVector : List Int
  deriving DecidableEq

/-- The wiki page URL built on line 290. -/
def dbRowUrl (row : DbRow) : String :=
  "https://home.intesys.it/wiki/-/wiki/" ++ row.description.replace " " "+" ++ "/"
    ++ row.title.replace " " "+"

/-- The `for i, chunk in enumerate(chunks)` loop body of lines 294-304:
one record per chunk, with `id = get_hash((title, i, chunk.page_content))`
(the default sha256 algorithm, which never raises). -/
def dbChunkRecords (embed : Embedder) (title url : String)
    (chunks : List (Nat × LCDocument)) : List DocRecord :=
  chunks.map (fun ic =>
    { id := get_hash_sha256 [PyVal.str title, PyVal.int ic.1, PyVal.str ic.2.page_content],
      content := ic.2.page_content, filepath := url, title := title, url := url,
      contentVector := embed ic.2.page_content })

/-- Model of `extract_text_from_db`: one batch (list of records) per row, in row
order; a `split_content` failure propagates (the generator, and with it
the whole run, aborts). -/
def extract_text_from_db (splitter : Splitter) (embed : Embedder) :
    List DbRow → Except PyError (List (List DocRecord))
  | [] => .ok []
  | row :: rest =>
    match split_content splitter row.content row.format with
    | .error e => .error e
    | .ok chunks =>
      match extract_text_from_db splitter embed rest with
      | .error e => .error e
      | .ok more =>
        .ok (dbChunkRecords embed row.title (dbRowUrl row) chunks.enum :: more)

/-! ### Upload loop of create_index_from_db (lines 386-394) -/

/-- A log record: the level and the message. -/
inductive LogEvent where
  | info (msg : String)
  | warning (msg : String)
  deriving DecidableEq

/-- An ASCII single quote (the log messages quote the index name). -/
def squote : String := String.singleton (Char.ofNat 39)

/-- The observable effects of the upload loop: the batches actually passed
to `search_client.upload_documents`, and the log records, in order. -/
structure UploadRun (α : Type) where
  uploads : List (List α)
  logs : List LogEvent
  deriving DecidableEq

/-- The sink: `upload_documents` either succeeds or raises. -/
abbrev Sink (α : Type) := List α → Except PyError Unit

/-- The `try`-wrapped body of the per-batch loop (lines 387-394): skip an
empty batch with a warning; otherwise upload, logging success, and on an
exception log `Upload failed: ...` and continue. -/
def processBatch (upload : Sink α) (index_name : String) (docs : List α) : UploadRun α :=
  if 0 < docs.length then
    match upload docs with
    | .ok _ =>
      ⟨[docs], [.info (toString docs.length ++ " documents uploaded to " ++ squote
        ++ index_name ++ squote)]⟩
    | .error e =>
      ⟨[docs], [.info ("Upload failed: " ++ e.args ++ " (" ++ e.ty ++ ")")]⟩
  else
    ⟨[], [.warning "Nothing to upload"]⟩

/-- The batch loop of `create_index_from_db`: process every batch the
extractor yields, in order, accumulating uploads and logs. -/
def create_index_from_db (upload : Sink α) (index_name : String) :
    List (List α) → UploadRun α
  | [] => ⟨[], []⟩
  | docs :: rest =>
    let r1 := processBatch upload index_name docs
    let r2 := create_index_from_db upload index_name rest
    ⟨r1.uploads ++ r2.uploads, r1.logs ++ r2.logs⟩

/-- The index schema dimension chosen by `create_index_definition`
(lines 60-63): 3072 for `text-embedding-3-large`, else 1536. -/
def create_index_definition_dimensions (model : String) : Nat :=
  if model = "text-embedding-3-large" then 3072 else 1536

/-! ### Concrete inputs used by witnesses and counterexamples -/

/-- Two files with the same bytes under different names, for the C2 witness. -/
def fsTwoFiles : FS := fun p =>
  if p = "a.pdf" then .found [1, 2, 3]
  else if p = "b.pdf" then .found [1, 2, 3]
  else .notFound

/-- A small concrete site: the seed `s` links to `sA` then `sB`; `sB`
links to `sBC`; every URL contains the seed `s` as a substring. -/
def exampleWeb : Web := fun u =>
  if u = "s" then ⟨200, none, "seed page", ["sA", "sB"]⟩
  else if u = "sA" then ⟨200, none, "page A", []⟩
  else if u = "sB" then ⟨200, none, "page B", ["sBC"]⟩
  else if u = "sBC" then ⟨200, none, "page BC", []⟩
  else ⟨404, none, "", []⟩

/-- A sink that rejects every batch, for the C7 counterexample/witness. -/
def failSink : Sink Nat := fun _ => .error ⟨"boom", "Exception"⟩

/-- Holds (as `true`) iff every record assembled by `extract_text_from_db` carries
exactly the vector the embedder returned for its content (no validation,
no resizing). Vacuously true when extraction aborts. -/
def db_vectors_verbatim (splitter : Splitter) (embed : Embedder) (rows : List DbRow) : Bool :=
  match extract_text_from_db splitter embed rows with
  | .ok batches => batches.all (fun b => b.all (fun r => r.contentVector == embed r.content))
  | .error _ => true

/-- A one-chunk splitter and an embedder returning a 3-entry vector, for
the C9 counterexample. -/
def splitterOne : Splitter := fun _ => [⟨"chunk text"⟩]

def embedShort : Embedder := fun _ => [1, 2, 3]

/-! ### Lemmas -/

theorem foldl_update_eq (f : β → List Nat) (l : List β) (alg : HashAlg) (init : List Nat) :
    l.foldl (fun (h : HashObj) e => h.update (f e)) ⟨alg, init⟩ =
      (⟨alg, init ++ (l.map f).flatten⟩ : HashObj) := by
  induction l generalizing init with
  | nil => simp
  | cons a as ih =>
    rw [List.foldl_cons]
    have h1 : HashObj.update ⟨alg, init⟩ (f a) = ⟨alg, init ++ f a⟩ := rfl
    rw [h1, ih]
    simp

theorem utf8Encode_append (a b : String) :
    utf8Encode (a ++ b) = utf8Encode a ++ utf8Encode b := by
  simp [utf8Encode, String.data_append]

theorem utf8Encode_join (l : List String) :
    utf8Encode (String.join l) = (l.map utf8Encode).flatten := by
  suffices h : ∀ s : String, utf8Encode (l.foldl (fun r t => r ++ t) s) =
      utf8Encode s ++ (l.map utf8Encode).flatten by
    have := h ""
    simpa [String.join] using this
  induction l with
  | nil => intro s; simp
  | cons a as ih => intro s; simp [ih, utf8Encode_append]

theorem chunksOfGo_flatten (n : Nat) (hn : 0 < n) :
    ∀ (fuel : Nat) (l : List α), l.length ≤ fuel → (chunksOfGo n fuel l).flatten = l := by
  intro fuel
  induction fuel with
  | zero => intro l hl; simp at hl; simp [hl, chunksOfGo]
  | succ fuel ih =>
    intro l hl
    match l with
    | [] => simp [chunksOfGo]
    | a :: as =>
      simp only [chunksOfGo, List.flatten_cons]
      rw [ih ((a :: as).drop n) (by rw [List.length_drop]; simp at hl ⊢; omega)]
      exact List.take_append_drop n (a :: as)

theorem chunksOf_flatten (n : Nat) (hn : 0 < n) (l : List α) :
    (chunksOf n l).flatten = l :=
  chunksOfGo_flatten n hn l.length l le_rfl

theorem pyInStr_refl (s : String) : pyInStr s s = true := by
  rw [pyInStr, List.any_eq_true]
  exact ⟨s.data, (List.mem_tails _ _).mpr (List.suffix_refl _),
    List.isPrefixOf_iff_prefix.mpr (List.prefix_refl _)⟩

theorem pyInStr_sandwich (n a b : String) : pyInStr n (a ++ n ++ b) = true := by
  rw [pyInStr, List.any_eq_true]
  refine ⟨n.data ++ b.data, (List.mem_tails _ _).mpr ?_,
    List.isPrefixOf_iff_prefix.mpr (List.prefix_append _ _)⟩
  rw [String.data_append, String.data_append, List.append_assoc]
  exact List.suffix_append _ _

theorem hash_algorithms_eq_none (s : String)
    (h : s ∉ ["md5", "sha1", "sha256", "sha512"]) : hash_algorithms s = none := by
  simp only [List.mem_cons, not_or] at h
  simp [hash_algorithms, h.1, h.2.1, h.2.2.1, h.2.2.2.1]

theorem get_hash_default_eq (content : List PyVal) :
    get_hash content "sha256" = .ok (get_hash_sha256 content) := by
  have h : hash_algorithms (pyLower "sha256") = some HashAlg.sha256 := by decide
  simp only [get_hash, h, get_hash_sha256]

theorem get_hash_sha256_as_digest (content : List PyVal) :
    get_hash_sha256 content =
      bytesToHex (sha256Bytes (utf8Encode (String.join (content.map pyStr)))) := by
  rw [get_hash_sha256, foldl_update_eq (fun e => utf8Encode (pyStr e)), utf8Encode_join]
  simp [HashObj.hexdigest, digestBytes, List.map_map, Function.comp_def]

theorem hexChar_mem (n : Nat) : hexChar n ∈ hexDigitChars := by
  by_cases h : n < hexDigitChars.length
  · rw [hexChar, List.getD_eq_getElem _ _ h]
    exact List.getElem_mem h
  · rw [hexChar, List.getD_eq_default _ _ (Nat.le_of_not_lt h)]
    decide

theorem bytesToHex_chars (bs : List Nat) :
    ∀ c ∈ (bytesToHex bs).data, c ∈ hexDigitChars := by
  rw [bytesToHex]
  induction bs with
  | nil => intro c hc; simp at hc
  | cons b bsr ih =>
    intro c hc
    simp only [List.foldr_cons, List.mem_cons] at hc
    rcases hc with h | h | h
    · rw [h]; exact hexChar_mem _
    · rw [h]; exact hexChar_mem _
    · exact ih c h

/-! ### Claim theorems -/

/-- C1: for every tuple of fields, `get_hash` with the default algorithm
(`sha256`) returns the lowercase hexadecimal SHA-256 digest of the UTF-8
encoding of the concatenation of the string forms of the fields in order;
and it is a pure function of its input (determinism is definitional in
this embedding, stated as invariance under syntactic equality of inputs). -/
theorem get_hash_sha256_spec (content : List PyVal) :
    get_hash content "sha256" =
      Except.ok (bytesToHex (sha256Bytes (utf8Encode (String.join (content.map pyStr)))))
    ∧ (∀ c ∈ (bytesToHex (sha256Bytes (utf8Encode (String.join (content.map pyStr))))).data,
        c ∈ hexDigitChars)
    ∧ (∀ content2 : List PyVal, content2 = content →
        get_hash content2 "sha256" = get_hash content "sha256") := by
  refine ⟨?_, bytesToHex_chars _, fun c2 h => by rw [h]⟩
  rw [get_hash_default_eq, get_hash_sha256_as_digest]

/-- Witness for C1 at a concrete tuple. -/
theorem get_hash_sha256_spec_witness :
    get_hash [PyVal.str "title", PyVal.int 1, PyVal.str "chunk text"] "sha256" =
      get_hash [PyVal.str "title", PyVal.int 1, PyVal.str "chunk text"] "sha256" :=
  (get_hash_sha256_spec [PyVal.str "title", PyVal.int 1, PyVal.str "chunk text"]).2.2
    [PyVal.str "title", PyVal.int 1, PyVal.str "chunk text"] rfl

theorem get_file_hash_found (fs : FS) (path : String) (bytes : List Nat)
    (h : fs path = .found bytes) :
    get_file_hash fs path "sha256" = ⟨some (bytesToHex (sha256Bytes bytes)), []⟩ := by
  have halg : hash_algorithms (pyLower "sha256") = some HashAlg.sha256 := by decide
  simp only [get_file_hash, halg, h]
  rw [foldl_update_eq (fun c => c)]
  have hmap : List.map (fun c : List Nat => c) (chunksOf 4096 bytes) = chunksOf 4096 bytes :=
    List.map_id _
  rw [hmap, chunksOf_flatten 4096 (by decide)]
  rfl

theorem extractPdfPages_spec (fs : FS) (embed : Embedder) (path fn nm : String)
    (pages : List String) :
    (extractPdfPages fs embed path fn nm pages).1.length = pages.length
    ∧ ∀ r ∈ (extractPdfPages fs embed path fn nm pages).1,
        r.id = (get_file_hash fs path "sha256").result := by
  induction pages with
  | nil => exact ⟨rfl, by intro r hr; simp [extractPdfPages] at hr⟩
  | cons t rest ih =>
    constructor
    · simp [extractPdfPages, ih.1]
    · intro r hr
      simp only [extractPdfPages, List.mem_cons] at hr
      rcases hr with h | h
      · rw [h]
      · exact ih.2 r h

/-- C2: when the PDF file's bytes are readable, every per-page record
produced by `extract_text_from_pdf` has as id the SHA-256 hex digest of the
whole file's bytes (streamed in 4096-byte blocks inside `get_file_hash`);
hence all pages share one id, there is one record per page, and two files
with byte-identical content yield the same ids whatever their names. -/
theorem extract_text_from_pdf_ids (fs : FS) (pdf : PdfReader) (embed : Embedder)
    (pdf_path : String) (bytes : List Nat) (h : fs pdf_path = .found bytes) :
    (∀ r ∈ (extract_text_from_pdf fs pdf embed pdf_path).1,
        r.id = some (bytesToHex (sha256Bytes bytes)))
    ∧ (extract_text_from_pdf fs pdf embed pdf_path).1.length = (pdf pdf_path).length
    ∧ (∀ (fs2 : FS) (pdf2 : PdfReader) (embed2 : Embedder) (path2 : String),
        fs2 path2 = .found bytes →
        ∀ r ∈ (extract_text_from_pdf fs pdf embed pdf_path).1,
        ∀ r2 ∈ (extract_text_from_pdf fs2 pdf2 embed2 path2).1, r.id = r2.id) := by
  have main : ∀ (fs2 : FS) (pdf2 : PdfReader) (embed2 : Embedder) (path2 : String),
      fs2 path2 = .found bytes →
      ∀ r ∈ (extract_text_from_pdf fs2 pdf2 embed2 path2).1,
        r.id = some (bytesToHex (sha256Bytes bytes)) := by
    intro fs2 pdf2 embed2 path2 h2 r hr
    have := (extractPdfPages_spec fs2 embed2 path2 (basename path2)
      (splitextRoot (basename path2)) (pdf2 path2)).2 r hr
    rw [this, get_file_hash_found fs2 path2 bytes h2]
  refine ⟨main fs pdf embed pdf_path h, ?_, ?_⟩
  · exact (extractPdfPages_spec fs embed pdf_path _ _ (pdf pdf_path)).1
  · intro fs2 pdf2 embed2 path2 h2 r hr r2 hr2
    rw [main fs pdf embed pdf_path h r hr, main fs2 pdf2 embed2 path2 h2 r2 hr2]


/-- Witness for C2: a concrete 2-page PDF whose bytes are `[1, 2, 3]`. -/
theorem extract_text_from_pdf_ids_witness :
    fsTwoFiles "a.pdf" = FileResult.found [1, 2, 3]
    ∧ ∀ r ∈ (extract_text_from_pdf fsTwoFiles (fun _ => ["page one", "page two"])
        (fun _ => []) "a.pdf").1,
        r.id = some (bytesToHex (sha256Bytes [1, 2, 3])) :=
  ⟨rfl, (extract_text_from_pdf_ids fsTwoFiles (fun _ => ["page one", "page two"])
    (fun _ => []) "a.pdf" [1, 2, 3] rfl).1⟩

/-- C10: when the file cannot be read (not found, permission denied, or
any other exception), `get_file_hash` does not raise: it prints one
message and returns `None`; `extract_text_from_pdf` still assembles one
record per page, each with id `None`, instead of skipping the item or
propagating an error. -/
theorem get_file_hash_unreadable (fs : FS) (pdf : PdfReader) (embed : Embedder)
    (path : String) (h : ∀ bytes, fs path ≠ FileResult.found bytes) :
    (∃ msg, get_file_hash fs path "sha256" = ⟨none, [msg]⟩)
    ∧ (extract_text_from_pdf fs pdf embed path).1.length = (pdf path).length
    ∧ ∀ r ∈ (extract_text_from_pdf fs pdf embed path).1, r.id = none := by
  have halg : hash_algorithms (pyLower "sha256") = some HashAlg.sha256 := by decide
  have hout : ∃ msg, get_file_hash fs path "sha256" = ⟨none, [msg]⟩ := by
    cases hf : fs path with
    | found bytes => exact absurd hf (h bytes)
    | notFound =>
      exact ⟨"File not found: " ++ path, by simp only [get_file_hash, halg, hf]⟩
    | permissionDenied =>
      exact ⟨"Permission denied: " ++ path, by simp only [get_file_hash, halg, hf]⟩
    | otherError msg =>
      exact ⟨"Error hashing file: " ++ msg, by simp only [get_file_hash, halg, hf]⟩
  refine ⟨hout, (extractPdfPages_spec fs embed path _ _ (pdf path)).1, ?_⟩
  intro r hr
  obtain ⟨msg, hmsg⟩ := hout
  have := (extractPdfPages_spec fs embed path (basename path)
    (splitextRoot (basename path)) (pdf path)).2 r hr
  rw [this, hmsg]

/-- Witness for C10: a file system on which every read fails. -/
theorem get_file_hash_unreadable_witness :
    (∃ msg, get_file_hash (fun _ => FileResult.notFound) "x.pdf" "sha256" = ⟨none, [msg]⟩)
    ∧ (extract_text_from_pdf (fun _ => FileResult.notFound) (fun _ => ["page one"])
        (fun _ => []) "x.pdf").1.length = (["page one"] : List String).length
    ∧ ∀ r ∈ (extract_text_from_pdf (fun _ => FileResult.notFound) (fun _ => ["page one"])
        (fun _ => []) "x.pdf").1, r.id = none :=
  get_file_hash_unreadable (fun _ => FileResult.notFound) (fun _ => ["page one"])
    (fun _ => []) "x.pdf" (fun _bytes hb => FileResult.noConfusion hb)


/-- Counterexample to C4: the crawl requests `sBC` (link-distance 2)
before `sA` (link-distance 1), because `urls.pop()` removes the LAST
element; the FIFO order the spec describes would be `s, sA, sB, sBC`. -/
theorem crawl_not_fifo_cex :
    (extract_text_from_web_page exampleWeb (fun _ => []) "s" 10).2 = ["s", "sB", "sBC", "sA"]
    ∧ crawlFifoSpec exampleWeb "s" 10 ["s"] = ["s", "sA", "sB", "sBC"]
    ∧ ((extract_text_from_web_page exampleWeb (fun _ => []) "s" 10).2
        == crawlFifoSpec exampleWeb "s" 10 ["s"]) = false := by decide

/-- C4 amended: the crawl processes discovered URLs in last-in-first-out
order: at every step the URL requested next is the most recently
appended worklist entry (`urls.pop()` pops the last element), i.e. the
crawl is depth-first, not breadth-first. -/
theorem crawl_pops_most_recent (web : Web) (embed : Embedder) (init : String)
    (fuel : Nat) (urls : List String) (u : String) :
    (crawl web embed init (fuel + 1) (urls ++ [u])).2.head? = some u := by
  simp only [crawl, List.getLast?_concat, List.dropLast_concat]
  split <;> rfl

theorem crawl_trace_same_site (web : Web) (embed : Embedder) (init : String) :
    ∀ (fuel : Nat) (urls : List String), (∀ u ∈ urls, pyInStr init u = true) →
      ∀ u ∈ (crawl web embed init fuel urls).2, pyInStr init u = true := by
  intro fuel
  induction fuel with
  | zero => intro urls _ u hu; simp [crawl] at hu
  | succ fuel ih =>
    intro urls hinv u hu
    rw [crawl] at hu
    cases hlast : urls.getLast? with
    | none => rw [hlast] at hu; simp at hu
    | some url =>
      simp only [hlast] at hu
      have hurl : url ∈ urls := by
        have hne : urls ≠ [] := by
          intro hnil; rw [hnil] at hlast; simp at hlast
        have := List.getLast?_eq_getLast urls hne
        rw [this] at hlast
        injection hlast with h1
        rw [← h1]
        exact List.getLast_mem hne
      by_cases hst : (web url).status = 200
      · rw [if_pos hst] at hu
        simp only [List.mem_cons] at hu
        rcases hu with h | h
        · rw [h]; exact hinv url hurl
        · refine ih _ ?_ u h
          intro v hv
          rcases List.mem_append.mp hv with h1 | h1
          · exact hinv v (List.IsPrefix.subset (List.dropLast_prefix urls) h1)
          · exact (List.mem_filter.mp h1).2
      · rw [if_neg hst] at hu
        simp only [List.mem_cons] at hu
        rcases hu with h | h
        · rw [h]; exact hinv url hurl
        · refine ih _ ?_ u h
          intro v hv
          exact hinv v (List.IsPrefix.subset (List.dropLast_prefix urls) hv)

/-- C5: every URL the crawl requests (the seed included) contains the
seed URL as a substring; links that do not contain the seed are filtered
out before being enqueued, so they are never fetched. -/
theorem extract_text_from_web_page_same_site (web : Web) (embed : Embedder)
    (initial_url : String) (fuel : Nat) :
    ∀ u ∈ (extract_text_from_web_page web embed initial_url fuel).2,
      pyInStr initial_url u = true := by
  refine crawl_trace_same_site web embed initial_url fuel [initial_url] ?_
  intro u hu
  rw [List.mem_singleton] at hu
  rw [hu]
  exact pyInStr_refl initial_url

/-- Witness for C5 on the concrete example site. -/
theorem extract_text_from_web_page_same_site_witness :
    "sB" ∈ (extract_text_from_web_page exampleWeb (fun _ => []) "s" 10).2
    ∧ pyInStr "s" "sB" = true :=
  ⟨by decide, extract_text_from_web_page_same_site exampleWeb (fun _ => []) "s" 10 "sB"
    (by decide)⟩

/-- C6: an empty batch contributes exactly one warning log and no call to
the sink's upload function: the run on `pre ++ [] :: post` uploads exactly
what the runs on `pre` and `post` upload, with the
`Nothing to upload` warning logged in between. -/
theorem create_index_from_db_empty_batch {α : Type} (upload : Sink α)
    (index_name : String) (pre post : List (List α)) :
    create_index_from_db upload index_name (pre ++ [] :: post) =
      ⟨(create_index_from_db upload index_name pre).uploads
          ++ (create_index_from_db upload index_name post).uploads,
        (create_index_from_db upload index_name pre).logs
          ++ LogEvent.warning "Nothing to upload"
          :: (create_index_from_db upload index_name post).logs⟩ := by
  induction pre with
  | nil => simp [create_index_from_db, processBatch]
  | cons b rest ih => simp [create_index_from_db, ih]

/-- C7 amended: a failing upload of a nonempty batch is caught for that
batch alone: the batch is still the only upload attempt it contributes,
one `Upload failed` info log carrying the failure reason (`e.args`) and
the exception type is emitted — the record count is not part of that
message — and the runs on the surrounding batches are unaffected. -/
theorem create_index_from_db_failure_isolated {α : Type} (upload : Sink α)
    (index_name : String) (pre post : List (List α)) (docs : List α) (e : PyError)
    (hne : 0 < docs.length) (hfail : upload docs = .error e) :
    create_index_from_db upload index_name (pre ++ docs :: post) =
      ⟨(create_index_from_db upload index_name pre).uploads
          ++ docs :: (create_index_from_db upload index_name post).uploads,
        (create_index_from_db upload index_name pre).logs
          ++ LogEvent.info ("Upload failed: " ++ e.args ++ " (" ++ e.ty ++ ")")
          :: (create_index_from_db upload index_name post).logs⟩
    ∧ pyInStr e.args ("Upload failed: " ++ e.args ++ " (" ++ e.ty ++ ")") = true := by
  constructor
  · induction pre with
    | nil => simp [create_index_from_db, processBatch, if_pos hne, hfail]
    | cons b rest ih => simp [create_index_from_db, ih]
  · have h : "Upload failed: " ++ e.args ++ " (" ++ e.ty ++ ")" =
        "Upload failed: " ++ e.args ++ (" (" ++ e.ty ++ ")") := by
      simp [String.append_assoc]
    rw [h]
    exact pyInStr_sandwich e.args "Upload failed: " (" (" ++ e.ty ++ ")")


/-- Counterexample to C7 as stated: a batch of 2 records fails; the log
carries the failure reason but NOT the record count (the substring "2"
does not occur in the message). -/
theorem upload_failure_log_lacks_count_cex :
    create_index_from_db failSink "idx" [[10, 20]] =
      ⟨[[10, 20]], [LogEvent.info "Upload failed: boom (Exception)"]⟩
    ∧ pyInStr "2" "Upload failed: boom (Exception)" = false := by decide

/-- Witness for the amended C7. -/
theorem create_index_from_db_failure_isolated_witness :
    0 < ([10, 20] : List Nat).length
    ∧ (create_index_from_db failSink "idx" ([[1]] ++ [10, 20] :: [[3]]) =
        ⟨(create_index_from_db failSink "idx" [[1]]).uploads
            ++ [10, 20] :: (create_index_from_db failSink "idx" [[3]]).uploads,
          (create_index_from_db failSink "idx" [[1]]).logs
            ++ LogEvent.info ("Upload failed: " ++ "boom" ++ " (" ++ "Exception" ++ ")")
            :: (create_index_from_db failSink "idx" [[3]]).logs⟩
        ∧ pyInStr "boom" ("Upload failed: " ++ "boom" ++ " (" ++ "Exception" ++ ")") = true) :=
  ⟨by decide, create_index_from_db_failure_isolated failSink "idx" [[1]] [[3]] [10, 20]
    ⟨"boom", "Exception"⟩ (by decide) rfl⟩

/-- Counterexample to C8 as stated: with the unsupported algorithm name
`sha3`, `get_file_hash` does not fail: its own `except Exception` clause
catches the internal `ValueError`, prints it, and the call completes
normally, returning `None` — even though the file itself is readable. -/
theorem get_file_hash_bad_algorithm_cex :
    get_file_hash (fun _ => FileResult.found [0]) "f.pdf" "sha3" =
      ⟨none, ["Error hashing file: Unsupported hash algorithm: sha3"]⟩ := by decide

/-- C8 amended: for an algorithm name whose lowercase form is outside
{md5, sha1, sha256, sha512}, no hashing occurs: `get_hash` raises
`ValueError('Unsupported hash algorithm: ...')`, while `get_file_hash`
catches that error itself, prints it, and returns `None` without reading
the file (the result is the same for every file system). -/
theorem unsupported_algorithm_behaviour (content : List PyVal) (fs : FS)
    (path algorithm : String)
    (h : pyLower algorithm ∉ ["md5", "sha1", "sha256", "sha512"]) :
    get_hash content algorithm =
      .error ⟨"Unsupported hash algorithm: " ++ algorithm, "ValueError"⟩
    ∧ get_file_hash fs path algorithm =
      ⟨none, ["Error hashing file: Unsupported hash algorithm: " ++ algorithm]⟩ := by
  have hnone := hash_algorithms_eq_none (pyLower algorithm) h
  exact ⟨by simp only [get_hash, hnone], by simp only [get_file_hash, hnone]⟩

/-- Witness for the amended C8 at the concrete name `SHA3`. -/
theorem unsupported_algorithm_behaviour_witness :
    pyLower "SHA3" ∉ ["md5", "sha1", "sha256", "sha512"]
    ∧ (get_hash [] "SHA3" =
        .error ⟨"Unsupported hash algorithm: " ++ "SHA3", "ValueError"⟩
      ∧ get_file_hash (fun _ => FileResult.notFound) "p.pdf" "SHA3" =
        ⟨none, ["Error hashing file: Unsupported hash algorithm: " ++ "SHA3"]⟩) :=
  ⟨by decide, unsupported_algorithm_behaviour [] (fun _ => FileResult.notFound)
    "p.pdf" "SHA3" (by decide)⟩




/-- Counterexample to C9 as stated: with the large model configured
(index dimension 3072) and an embedder answering a 3-entry vector, the
record is assembled and handed on without any error: no ConfigurationError
exists in the ingestion code. -/
theorem vector_length_unchecked_cex :
    ((extract_text_from_db splitterOne embedShort
        [⟨"desc", "title", "content", "creole"⟩]).toOption.map
      (fun bs => bs.map (fun b => b.map (fun r => r.contentVector.length)))) = some [[3]]
    ∧ create_index_definition_dimensions "text-embedding-3-large" = 3072 := by decide

/-- C9 amended: `create_index_definition` picks dimension 3072 for
`text-embedding-3-large` and 1536 otherwise (the legacy ada model), but
only for the index schema; the assembled records carry the embedder's
vector verbatim — the ingestion code never checks the vector length and
never raises a ConfigurationError for a mismatch. -/
theorem assembled_vector_unvalidated (splitter : Splitter) (embed : Embedder)
    (rows : List DbRow) :
    db_vectors_verbatim splitter embed rows = true
    ∧ create_index_definition_dimensions "text-embedding-3-large" = 3072
    ∧ create_index_definition_dimensions "text-embedding-ada-002" = 1536 := by
  refine ⟨?_, by decide, by decide⟩
  induction rows with
  | nil => rfl
  | cons row rest ih =>
    rw [db_vectors_verbatim, extract_text_from_db]
    cases hs : split_content splitter row.content row.format with
    | error e => rfl
    | ok chunks =>
      rw [db_vectors_verbatim] at ih
      cases hr : extract_text_from_db splitter embed rest with
      | error e => rfl
      | ok more =>
        rw [hr] at ih
        have ih2 : more.all (fun b => b.all fun r => r.contentVector == embed r.content)
            = true := ih
        simp only [List.all_cons, ih2, Bool.and_true]
        simp only [dbChunkRecords, List.all_map, Function.comp_def]
        apply List.all_eq_true.mpr
        intro ic hic
        rcases List.mem_map.mp hic with ⟨x, hx, rfl⟩
        simp


/-- FIPS 180-4 test vector for the message `abc`, validating the SHA-256
embedding (constants, padding, schedule, compression, hex output). -/
theorem sha256_test_vector_abc :
    bytesToHex (sha256Bytes (utf8Encode "abc")) =
      "ba7816bf8f01cfea414140de5dae2223b00361a396177a9cb410ff61f20015ad" := by decide

end AzureAIChat
